import Mathlib

/-
Verification of the foodgram backend core logic (backend/api/views.py,
backend/api/serializers.py, backend/recipes/models.py).

The relational store is embedded shallowly: each table is a list of rows,
each view action is a pure function from the current table contents (and the
request data) to a response value paired with the new table contents.
Password hashes are modelled by the stored password string itself, with
check_password as string equality.
-/

namespace Foodgram

/-- HTTP method of a request, restricted to the two used by the
detail actions under verification. -/
inductive Method
  | post
  | delete
deriving DecidableEq

/-- Row of recipes.models.Ingredient: id, name, measurement_unit. -/
structure Ingredient where
  id : Nat
  name : String
  measurement_unit : String
deriving DecidableEq

/-- Row of recipes.models.RecipeIngredientAmount: a recipe pk, the referenced
Ingredient row (the foreign key dereferenced), and the amount. -/
structure RecipeIngredientAmount where
  recipe : Nat
  ingredient : Ingredient
  amount : Nat
deriving DecidableEq

/-- Row of the abstract FavoriteShoppingCartBaseModel (recipes.models.Favorite
and recipes.models.ShoppingCart): a (user pk, recipe pk) membership pair. -/
structure MembershipRow where
  user : Nat
  recipe : Nat
deriving DecidableEq

/-- Row of recipes.models.Subscription: (user pk, author pk). -/
structure SubscriptionRow where
  user : Nat
  author : Nat
deriving DecidableEq

/-- Row of the user table: pk, stored password (standing in for the password
hash) and the staff flag. -/
structure UserRec where
  id : Nat
  password : String
  is_staff : Bool
deriving DecidableEq

/- ---------------------------------------------------------------------
Shopping-list aggregation (RecipeViewSet.download_shopping_cart).
--------------------------------------------------------------------- -/

/-- Grouping key used by the download_shopping_cart query:
values('ingredient__name', 'ingredient__measurement_unit'). -/
def riaKey (r : RecipeIngredientAmount) : String × String :=
  (r.ingredient.name, r.ingredient.measurement_unit)

/-- Recipe pks in a user's cart:
user.recipes_shoppingcart_related.all().values_list('recipe__pk', flat=True). -/
def cartRecipePks (cart : List MembershipRow) (user : Nat) : List Nat :=
  (cart.filter (fun m => m.user == user)).map (fun m => m.recipe)

/-- The amount rows joined to the cart recipes:
RecipeIngredientAmount.objects.filter(recipe__in=recipes). -/
def cartAmountRows (cart : List MembershipRow) (rias : List RecipeIngredientAmount)
    (user : Nat) : List RecipeIngredientAmount :=
  rias.filter (fun r => (cartRecipePks cart user).contains r.recipe)

/-- Group-by-key with Sum('amount'):
.values('ingredient__name', 'ingredient__measurement_unit').annotate(amount=Sum('amount')).
One output row per distinct key of the input rows, carrying the sum of the
amounts of the rows with that key. -/
def aggregate (rows : List RecipeIngredientAmount) : List ((String × String) × Nat) :=
  ((rows.map riaKey).dedup).map (fun k =>
    (k, ((rows.filter (fun r => decide (riaKey r = k))).map (fun r => r.amount)).sum))

/-- RecipeViewSet.download_shopping_cart, up to the aggregated rows handed to
the PDF renderer. -/
def download_shopping_cart (cart : List MembershipRow)
    (rias : List RecipeIngredientAmount) (user : Nat) :
    List ((String × String) × Nat) :=
  aggregate (cartAmountRows cart rias user)

/- ---------------------------------------------------------------------
Favorite / shopping-cart membership (RecipeViewSet.favorite_shopping_cart).
--------------------------------------------------------------------- -/

/-- Response of RecipeViewSet.favorite_shopping_cart: 201 with the serialized
recipe, 204 with no body, or 400 with a body keyed "errors". -/
inductive FscResp
  | created (pk : Nat)
  | noContent
  | badRequestErrors (msg : String)
deriving DecidableEq

/-- HTTP status code of a favorite_shopping_cart response. -/
def FscResp.status : FscResp → Nat
  | created _ => 201
  | noContent => 204
  | badRequestErrors _ => 400

/-- True exactly when the response body is keyed by "errors". -/
def FscResp.hasErrorsKey : FscResp → Bool
  | badRequestErrors _ => true
  | _ => false

/-- Predicate selecting the membership rows of a given (user, recipe) pair. -/
def memPred (user pk : Nat) : MembershipRow → Bool :=
  fun r => r.user == user && r.recipe == pk

/-- Number of stored rows for a (user, recipe) pair in a membership table. -/
def countMem (table : List MembershipRow) (user pk : Nat) : Nat :=
  (table.filter (memPred user pk)).length

/-- RecipeViewSet.favorite_shopping_cart. `recipePks` is the set of existing
recipe pks (Recipe.objects); `table` is the contents of the dispatched model's
table (Favorite or ShoppingCart); the row filtered by the requesting user
plays the role of the `related` queryset. POST runs get_or_create and answers
400 when the row already existed; DELETE fetches the user's row for the
recipe, 400 when absent, and deletes that single row otherwise. A pk outside
`recipePks` answers 400 before the method branch. -/
def favorite_shopping_cart (recipePks : List Nat) (table : List MembershipRow)
    (user pk : Nat) (method : Method) (text : String) :
    FscResp × List MembershipRow :=
  if ¬ recipePks.contains pk then
    (.badRequestErrors "Рецепт не найден.", table)
  else
    match method with
    | .post =>
      if table.any (memPred user pk) then
        (.badRequestErrors ("Рецепт уже в " ++ text ++ "."), table)
      else
        (.created pk, table ++ [⟨user, pk⟩])
    | .delete =>
      if table.any (memPred user pk) then
        (.noContent, table.eraseP (memPred user pk))
      else
        (.badRequestErrors ("Рецепт не найден в " ++ text ++ "."), table)

/-- Length of the rows matching `p` after erasing the first match: one less
when a match exists, unchanged otherwise. -/
theorem filter_eraseP_length {α : Type} (p : α → Bool) (l : List α) :
    ((l.eraseP p).filter p).length
      = (l.filter p).length - (if l.any p then 1 else 0) := by
  induction l with
  | nil => simp
  | cons a l ih =>
    by_cases ha : p a
    · simp [List.eraseP_cons, ha]
    · simp only [List.eraseP_cons, ha, Bool.false_eq_true, if_false,
        List.filter_cons, List.any_cons, Bool.false_or, cond_false]
      exact ih

/-- A membership table has a row for the pair iff its count is nonzero. -/
theorem any_memPred_iff (table : List MembershipRow) (user pk : Nat) :
    table.any (memPred user pk) = true ↔ 0 < countMem table user pk := by
  rw [List.any_eq_true]
  constructor
  · rintro ⟨r, hr, hpr⟩
    have : r ∈ table.filter (memPred user pk) := List.mem_filter.mpr ⟨hr, hpr⟩
    exact List.length_pos.mpr (List.ne_nil_of_mem this)
  · intro h
    obtain ⟨r, hr⟩ := List.exists_mem_of_length_pos h
    have := List.mem_filter.mp hr
    exact ⟨r, this.1, this.2⟩

/- ---------------------------------------------------------------------
Claim C1.
--------------------------------------------------------------------- -/

/-- C1: the shopping-list aggregation over the recipes in a user's cart groups
the joined ingredient-amount rows by (ingredient name, measurement unit) and
sums the amount field within each group, producing exactly one output row per
distinct (name, unit) pair present; on the concrete cart holding R1 with
(flour, g, 200) and R2 with (flour, g, 100) and (egg, pcs, 2) the output is
exactly the two groups flour/g with total 300 and egg/pcs with total 2. -/
theorem c1_shopping_list_aggregation (cart : List MembershipRow)
    (rias : List RecipeIngredientAmount) (user : Nat) :
    ((download_shopping_cart cart rias user).map Prod.fst).Nodup ∧
    (∀ k, k ∈ (download_shopping_cart cart rias user).map Prod.fst ↔
      k ∈ (cartAmountRows cart rias user).map riaKey) ∧
    (∀ p ∈ download_shopping_cart cart rias user,
      p.2 = (((cartAmountRows cart rias user).filter
        (fun r => decide (riaKey r = p.1))).map (fun r => r.amount)).sum) ∧
    download_shopping_cart [⟨7, 1⟩, ⟨7, 2⟩]
      [⟨1, ⟨1, "flour", "g"⟩, 200⟩, ⟨2, ⟨1, "flour", "g"⟩, 100⟩,
       ⟨2, ⟨2, "egg", "pcs"⟩, 2⟩] 7
    = [(("flour", "g"), 300), (("egg", "pcs"), 2)] := by
  have hfst : (download_shopping_cart cart rias user).map Prod.fst
      = ((cartAmountRows cart rias user).map riaKey).dedup := by
    simp only [download_shopping_cart, aggregate, List.map_map]
    exact List.map_id _ ▸ (List.map_congr_left (fun k _ => rfl))
  refine ⟨?_, ?_, ?_, by decide⟩
  · rw [hfst]; exact List.nodup_dedup _
  · intro k; rw [hfst]; exact List.mem_dedup
  · intro p hp
    simp only [download_shopping_cart, aggregate, List.mem_map] at hp
    obtain ⟨k, hk, hpk⟩ := hp
    subst hpk
    rfl

/-- C1 witness: the bounded-quantifier parts of c1_shopping_list_aggregation
evaluated at a concrete cart. -/
theorem c1_shopping_list_aggregation_witness :
    (("flour", "g"), 300) ∈ download_shopping_cart [⟨7, 1⟩, ⟨7, 2⟩]
      [⟨1, ⟨1, "flour", "g"⟩, 200⟩, ⟨2, ⟨1, "flour", "g"⟩, 100⟩,
       ⟨2, ⟨2, "egg", "pcs"⟩, 2⟩] 7 ∧
    (300 : Nat) = ((([⟨1, ⟨1, "flour", "g"⟩, 200⟩, ⟨2, ⟨1, "flour", "g"⟩, 100⟩,
       ⟨2, ⟨2, "egg", "pcs"⟩, 2⟩] : List RecipeIngredientAmount).filter
        (fun r => decide (riaKey r = ("flour", "g")))).map (fun r => r.amount)).sum := by
  have h := c1_shopping_list_aggregation [⟨7, 1⟩, ⟨7, 2⟩]
      [⟨1, ⟨1, "flour", "g"⟩, 200⟩, ⟨2, ⟨1, "flour", "g"⟩, 100⟩,
       ⟨2, ⟨2, "egg", "pcs"⟩, 2⟩] 7
  refine ⟨by decide, ?_⟩
  have hm : (("flour", "g"), 300) ∈ download_shopping_cart [⟨7, 1⟩, ⟨7, 2⟩]
      [⟨1, ⟨1, "flour", "g"⟩, 200⟩, ⟨2, ⟨1, "flour", "g"⟩, 100⟩,
       ⟨2, ⟨2, "egg", "pcs"⟩, 2⟩] 7 := by decide
  have h3 := h.2.2.1 _ hm
  simpa [cartAmountRows, cartRecipePks] using h3

/- ---------------------------------------------------------------------
Claim C2.
--------------------------------------------------------------------- -/

/-- Count of matching rows grows by one when the pair's row is appended. -/
theorem countMem_append_self (table : List MembershipRow) (user pk : Nat) :
    countMem (table ++ [⟨user, pk⟩]) user pk = countMem table user pk + 1 := by
  simp [countMem, List.filter_append, memPred]

/-- C2: for an existing recipe, POST creates the membership row when absent
(201, one stored row) and answers an error when present, leaving exactly one
stored row; DELETE removes the row when present (204, zero rows) and answers
a not-found-style error when absent, leaving the table unchanged; hence the
POST, POST, DELETE, DELETE sequence from an absent row answers
201, 400, 204, 400 with the intermediate row counts 1, 1, 0. -/
theorem c2_membership_post_delete (recipePks : List Nat)
    (table : List MembershipRow) (user pk : Nat) (text : String)
    (hrec : pk ∈ recipePks) :
    (countMem table user pk = 0 →
      (favorite_shopping_cart recipePks table user pk .post text).1 = .created pk ∧
      countMem (favorite_shopping_cart recipePks table user pk .post text).2 user pk = 1) ∧
    (countMem table user pk = 1 →
      ((favorite_shopping_cart recipePks table user pk .post text).1).status = 400 ∧
      (favorite_shopping_cart recipePks table user pk .post text).2 = table) ∧
    (countMem table user pk = 1 →
      (favorite_shopping_cart recipePks table user pk .delete text).1 = .noContent ∧
      countMem (favorite_shopping_cart recipePks table user pk .delete text).2 user pk = 0) ∧
    (countMem table user pk = 0 →
      ((favorite_shopping_cart recipePks table user pk .delete text).1).status = 400 ∧
      (favorite_shopping_cart recipePks table user pk .delete text).2 = table) ∧
    (countMem table user pk = 0 →
      (favorite_shopping_cart recipePks table user pk .post text).1 = .created pk ∧
      ((favorite_shopping_cart recipePks
        (favorite_shopping_cart recipePks table user pk .post text).2
        user pk .post text).1).status = 400 ∧
      countMem (favorite_shopping_cart recipePks
        (favorite_shopping_cart recipePks table user pk .post text).2
        user pk .post text).2 user pk = 1 ∧
      (favorite_shopping_cart recipePks
        (favorite_shopping_cart recipePks
          (favorite_shopping_cart recipePks table user pk .post text).2
          user pk .post text).2 user pk .delete text).1 = .noContent ∧
      countMem (favorite_shopping_cart recipePks
        (favorite_shopping_cart recipePks
          (favorite_shopping_cart recipePks table user pk .post text).2
          user pk .post text).2 user pk .delete text).2 user pk = 0 ∧
      ((favorite_shopping_cart recipePks
        (favorite_shopping_cart recipePks
          (favorite_shopping_cart recipePks
            (favorite_shopping_cart recipePks table user pk .post text).2
            user pk .post text).2 user pk .delete text).2
        user pk .delete text).1).status = 400) := by
  have hc : recipePks.contains pk = true := List.elem_eq_true_of_mem hrec
  have hpost0 : ∀ t : List MembershipRow, countMem t user pk = 0 →
      favorite_shopping_cart recipePks t user pk .post text
        = (.created pk, t ++ [⟨user, pk⟩]) := by
    intro t h0
    have hany : t.any (memPred user pk) = false := by
      rw [← Bool.not_eq_true, any_memPred_iff]; omega
    simp [favorite_shopping_cart, hc, hrec, hany]
  have hpost1 : ∀ t : List MembershipRow, 0 < countMem t user pk →
      favorite_shopping_cart recipePks t user pk .post text
        = (.badRequestErrors ("Рецепт уже в " ++ text ++ "."), t) := by
    intro t h1
    have hany : t.any (memPred user pk) = true := by
      rw [any_memPred_iff]; omega
    simp [favorite_shopping_cart, hc, hrec, hany]
  have hdel1 : ∀ t : List MembershipRow, 0 < countMem t user pk →
      favorite_shopping_cart recipePks t user pk .delete text
        = (.noContent, t.eraseP (memPred user pk)) := by
    intro t h1
    have hany : t.any (memPred user pk) = true := by
      rw [any_memPred_iff]; omega
    simp [favorite_shopping_cart, hc, hrec, hany]
  have hdel0 : ∀ t : List MembershipRow, countMem t user pk = 0 →
      favorite_shopping_cart recipePks t user pk .delete text
        = (.badRequestErrors ("Рецепт не найден в " ++ text ++ "."), t) := by
    intro t h0
    have hany : t.any (memPred user pk) = false := by
      rw [← Bool.not_eq_true, any_memPred_iff]; omega
    simp [favorite_shopping_cart, hc, hrec, hany]
  have hcerase : ∀ t : List MembershipRow, 0 < countMem t user pk →
      countMem (t.eraseP (memPred user pk)) user pk = countMem t user pk - 1 := by
    intro t h1
    have hany : t.any (memPred user pk) = true := by
      rw [any_memPred_iff]; omega
    have h2 := filter_eraseP_length (memPred user pk) t
    rw [hany] at h2
    simpa [countMem] using h2
  refine ⟨?_, ?_, ?_, ?_, ?_⟩
  · intro h0
    rw [hpost0 table h0]
    exact ⟨rfl, by rw [countMem_append_self, h0]⟩
  · intro h1
    rw [hpost1 table (by omega)]
    exact ⟨rfl, rfl⟩
  · intro h1
    rw [hdel1 table (by omega)]
    refine ⟨rfl, ?_⟩
    have := hcerase table (by omega)
    simpa [h1] using this
  · intro h0
    rw [hdel0 table h0]
    exact ⟨rfl, rfl⟩
  · intro h0
    rw [hpost0 table h0]
    dsimp only
    have hcnt1 : countMem (table ++ [⟨user, pk⟩]) user pk = 1 := by
      rw [countMem_append_self, h0]
    have e2 := hpost1 (table ++ [MembershipRow.mk user pk]) (by omega)
    rw [e2]
    dsimp only
    have e3 := hdel1 (table ++ [MembershipRow.mk user pk]) (by omega)
    rw [e3]
    dsimp only
    have hcnt0 : countMem ((table ++ [MembershipRow.mk user pk]).eraseP (memPred user pk))
        user pk = 0 := by
      have := hcerase (table ++ [MembershipRow.mk user pk]) (by omega)
      omega
    rw [hdel0 _ hcnt0]
    exact ⟨rfl, rfl, hcnt1, rfl, hcnt0, rfl⟩

/-- C2 witness: the full POST, POST, DELETE, DELETE scenario for user 5 and
recipe 3 starting from an empty favorite table. -/
theorem c2_membership_post_delete_witness :
    (favorite_shopping_cart [3] [] 5 3 .post "избранном").1 = .created 3 ∧
    ((favorite_shopping_cart [3] (favorite_shopping_cart [3] [] 5 3 .post "избранном").2
      5 3 .post "избранном").1).status = 400 ∧
    countMem (favorite_shopping_cart [3] (favorite_shopping_cart [3] [] 5 3 .post "избранном").2
      5 3 .post "избранном").2 5 3 = 1 := by
  have h := (c2_membership_post_delete [3] [] 5 3 "избранном" (by decide)).2.2.2.2 (by decide)
  exact ⟨h.1, h.2.1, h.2.2.1⟩

/- ---------------------------------------------------------------------
Claim C6.
--------------------------------------------------------------------- -/

/-- C6: a favorite/shopping-cart request naming a missing recipe id answers
status 400 with an "errors"-keyed body for either method, and a DELETE naming
a recipe with no membership row answers status 400 with an "errors"-keyed
body; in both cases the stored table is unchanged. -/
theorem c6_missing_recipe_membership_400 (recipePks : List Nat)
    (table : List MembershipRow) (user pk : Nat) (method : Method)
    (text : String) :
    (pk ∉ recipePks →
      ((favorite_shopping_cart recipePks table user pk method text).1).status = 400 ∧
      ((favorite_shopping_cart recipePks table user pk method text).1).hasErrorsKey = true ∧
      (favorite_shopping_cart recipePks table user pk method text).2 = table) ∧
    (pk ∈ recipePks → countMem table user pk = 0 →
      ((favorite_shopping_cart recipePks table user pk .delete text).1).status = 400 ∧
      ((favorite_shopping_cart recipePks table user pk .delete text).1).hasErrorsKey = true ∧
      (favorite_shopping_cart recipePks table user pk .delete text).2 = table) := by
  constructor
  · intro h
    have hc : recipePks.contains pk = false := by
      rw [← Bool.not_eq_true]
      intro hcc
      exact h (List.mem_of_elem_eq_true hcc)
    simp [favorite_shopping_cart, hc, h, FscResp.status, FscResp.hasErrorsKey]
  · intro hmem h0
    have hc : recipePks.contains pk = true := List.elem_eq_true_of_mem hmem
    have hany : table.any (memPred user pk) = false := by
      rw [← Bool.not_eq_true, any_memPred_iff]
      omega
    simp [favorite_shopping_cart, hc, hmem, hany, FscResp.status, FscResp.hasErrorsKey]

/-- C6 witness: missing recipe 9 on a POST, and a DELETE of recipe 3 with no
membership row, both at a concrete state. -/
theorem c6_missing_recipe_membership_400_witness :
    ((favorite_shopping_cart [3] [⟨5, 3⟩] 5 9 .post "избранном").1).status = 400 ∧
    (favorite_shopping_cart [3] [⟨5, 3⟩] 5 9 .post "избранном").2 = [⟨5, 3⟩] ∧
    ((favorite_shopping_cart [3] [] 5 3 .delete "избранном").1).status = 400 ∧
    ((favorite_shopping_cart [3] [] 5 3 .delete "избранном").1).hasErrorsKey = true := by
  have h1 := (c6_missing_recipe_membership_400 [3] [⟨5, 3⟩] 5 9 .post "избранном").1 (by decide)
  have h2 := (c6_missing_recipe_membership_400 [3] [] 5 3 .delete "избранном").2
    (by decide) (by decide)
  exact ⟨h1.1, h1.2.2, h2.1, h2.2.1⟩

/- ---------------------------------------------------------------------
UserViewSet.set_password and claim C3.
--------------------------------------------------------------------- -/

/-- Response of UserViewSet.set_password: 204 on success, 400 with the
current_password-keyed message otherwise. -/
inductive PwResp
  | noContent
  | badRequest
deriving DecidableEq

/-- Store a new password on the user row with the given pk
(user.set_password followed by user.save). -/
def updatePassword (users : List UserRec) (uid : Nat) (pw : String) :
    List UserRec :=
  users.map (fun u => if u.id == uid then { u with password := pw } else u)

/-- UserViewSet.set_password. When the requester is staff, the code scans
User.objects.all() and rewrites the password of the first user whose stored
password checks against current_password; only when no user matches does it
fall through to the requester's own check-and-update, answering 400 when that
also fails. -/
def set_password (users : List UserRec) (request_user : UserRec)
    (current_password new_password : String) : PwResp × List UserRec :=
  if request_user.is_staff then
    match users.find? (fun u => u.password == current_password) with
    | some u => (.noContent, updatePassword users u.id new_password)
    | none =>
      if request_user.password == current_password then
        (.noContent, updatePassword users request_user.id new_password)
      else
        (.badRequest, users)
  else
    if request_user.password == current_password then
      (.noContent, updatePassword users request_user.id new_password)
    else
      (.badRequest, users)

/-- C3: for a staff requester, whenever some user's stored password matches
current_password, the first such user in iteration order is the one whose
password is rewritten to new_password with a success response — with no
constraint tying that user to the requester, whose other rows stay in the
table; only when no user matches does the operation fall through to the
requester's own password check and update. -/
theorem c3_set_password_staff_frame (users : List UserRec) (ru : UserRec)
    (cur npw : String) (hstaff : ru.is_staff = true) :
    ((∃ u ∈ users, u.password = cur) →
      (users.find? (fun u => u.password == cur)).isSome = true) ∧
    (∀ w, users.find? (fun u => u.password == cur) = some w →
      w ∈ users ∧ w.password = cur ∧
      set_password users ru cur npw = (.noContent, updatePassword users w.id npw) ∧
      { w with password := npw } ∈ (set_password users ru cur npw).2 ∧
      ∀ v ∈ users, v.id ≠ w.id → v ∈ (set_password users ru cur npw).2) ∧
    (users.find? (fun u => u.password == cur) = none →
      set_password users ru cur npw =
        (if ru.password == cur then (.noContent, updatePassword users ru.id npw)
         else (.badRequest, users))) := by
  refine ⟨?_, ?_, ?_⟩
  · rintro ⟨u, hu, hpw⟩
    rw [List.find?_isSome]
    exact ⟨u, hu, by simp [hpw]⟩
  · intro w hw
    have hmem : w ∈ users := List.mem_of_find?_eq_some hw
    have hpw : w.password = cur := by
      have := List.find?_some hw
      simpa using this
    have hset : set_password users ru cur npw
        = (.noContent, updatePassword users w.id npw) := by
      simp [set_password, hstaff, hw]
    refine ⟨hmem, hpw, hset, ?_, ?_⟩
    · rw [hset]
      exact List.mem_map.mpr ⟨w, hmem, by simp⟩
    · intro v hv hne
      rw [hset]
      refine List.mem_map.mpr ⟨v, hv, ?_⟩
      simp [hne]
  · intro hnone
    simp [set_password, hstaff, hnone]

/-- C3 witness: staff user 1 sends user 2's password as current_password; the
stored password of user 2 — not of the requester — is replaced. -/
theorem c3_set_password_staff_frame_witness :
    set_password [⟨1, "adminpw", true⟩, ⟨2, "victimpw", false⟩]
      ⟨1, "adminpw", true⟩ "victimpw" "stolen"
    = (.noContent, [⟨1, "adminpw", true⟩, ⟨2, "stolen", false⟩]) := by
  have h := (c3_set_password_staff_frame
      [⟨1, "adminpw", true⟩, ⟨2, "victimpw", false⟩]
      ⟨1, "adminpw", true⟩ "victimpw" "stolen" rfl).2.1
      ⟨2, "victimpw", false⟩ (by decide)
  rw [h.2.2.1]
  decide

/- ---------------------------------------------------------------------
UserViewSet.subscribe and claim C4.
--------------------------------------------------------------------- -/

/-- Response of UserViewSet.subscribe: 201 with the serialized subscription,
a raised ValidationError (rendered as a field-keyed 400), 204, or 400 with an
"errors"-keyed body. -/
inductive SubResp
  | created
  | validationError (field : String) (msg : String)
  | noContent
  | badRequestErrors (msg : String)
deriving DecidableEq

/-- Predicate selecting the subscription rows of a given (user, author) pair. -/
def subPred (user author : Nat) : SubscriptionRow → Bool :=
  fun s => s.user == user && s.author == author

/-- UserViewSet.subscribe. POST raises a ValidationError on self-subscription,
then on an existing (user, author) row, and otherwise runs get_or_create;
DELETE removes the matching rows of user.subscriptions and answers 400 when
the delete count is zero. -/
def subscribe (subs : List SubscriptionRow) (user author : Nat)
    (method : Method) : SubResp × List SubscriptionRow :=
  match method with
  | .post =>
    if user == author then
      (.validationError "author" "Подписка на себя запрещена.", subs)
    else if subs.any (subPred user author) then
      (.validationError "author" "Такая подписка уже существует.", subs)
    else
      (.created, subs ++ [⟨user, author⟩])
  | .delete =>
    if subs.any (subPred user author) then
      (.noContent, subs.filter (fun s => !(subPred user author s)))
    else
      (.badRequestErrors "Автор не найден в подписках.", subs)

/-- Store invariant of recipes.models.Subscription declared by its Meta
constraints: the (user, author) pairs are unique and no row subscribes a user
to themselves. -/
def SubInvariant (subs : List SubscriptionRow) : Prop :=
  (∀ s ∈ subs, s.user ≠ s.author) ∧
  (subs.map (fun s => (s.user, s.author))).Nodup

/-- C4: a POST subscribing a user to themselves answers a validation error
and leaves the store unchanged regardless of prior state; a duplicate
(user, author) POST is likewise rejected with a validation error; and every
subscribe operation preserves the invariant that (user, author) pairs are
unique with user distinct from author — so no self-subscription row can ever
come to exist. -/
theorem c4_subscription_invariant (subs : List SubscriptionRow)
    (user author : Nat) (method : Method) :
    (method = .post → user = author →
      subscribe subs user author method
        = (.validationError "author" "Подписка на себя запрещена.", subs)) ∧
    (method = .post → user ≠ author →
      (user, author) ∈ subs.map (fun s => (s.user, s.author)) →
      subscribe subs user author method
        = (.validationError "author" "Такая подписка уже существует.", subs)) ∧
    (SubInvariant subs → SubInvariant (subscribe subs user author method).2) := by
  refine ⟨?_, ?_, ?_⟩
  · rintro rfl rfl
    simp [subscribe]
  · rintro rfl hne hdup
    have hany : subs.any (subPred user author) = true := by
      rw [List.any_eq_true]
      obtain ⟨s, hs, hpair⟩ := List.mem_map.mp hdup
      exact ⟨s, hs, by simp [subPred, Prod.ext_iff] at hpair ⊢; exact ⟨hpair.1, hpair.2⟩⟩
    simp [subscribe, hne, hany]
  · rintro ⟨hself, hnodup⟩
    cases method with
    | post =>
      by_cases heq : user = author
      · simp [subscribe, heq]
        exact ⟨hself, hnodup⟩
      · by_cases hany : subs.any (subPred user author) = true
        · simp [subscribe, heq, hany]
          exact ⟨hself, hnodup⟩
        · have hnotany : subs.any (subPred user author) = false :=
            Bool.not_eq_true _ ▸ hany
          have hbeq : (user == author) = false := by
            simp [heq]
          simp only [subscribe, hbeq, hnotany, Bool.false_eq_true, if_false]
          constructor
          · intro s hs
            rcases List.mem_append.mp hs with h | h
            · exact hself s h
            · simp at h
              subst h
              exact heq
          · rw [List.map_append]
            rw [List.nodup_append]
            refine ⟨hnodup, List.nodup_singleton _, ?_⟩
            intro p hp hq
            simp at hq
            obtain ⟨s, hs, hpair⟩ := List.mem_map.mp hp
            rw [List.any_eq_true] at hany
            apply hany
            refine ⟨s, hs, ?_⟩
            simp [subPred, Prod.ext_iff] at hpair ⊢
            rw [hq] at hpair
            exact ⟨hpair.1, hpair.2⟩
    | delete =>
      by_cases hany : subs.any (subPred user author) = true
      · simp only [subscribe, hany, if_true]
        constructor
        · intro s hs
          exact hself s (List.mem_of_mem_filter hs)
        · exact hnodup.sublist ((List.filter_sublist subs).map _)
      · have hnotany : subs.any (subPred user author) = false :=
          Bool.not_eq_true _ ▸ hany
        simp [subscribe, hnotany]
        exact ⟨hself, hnodup⟩

/-- C4 witness: user 3 subscribing to themselves is rejected on a nonempty
store, a duplicate of the stored pair (1, 2) is rejected, and a fresh POST
keeps the invariant. -/
theorem c4_subscription_invariant_witness :
    subscribe [⟨1, 2⟩] 3 3 .post
      = (.validationError "author" "Подписка на себя запрещена.", [⟨1, 2⟩]) ∧
    subscribe [⟨1, 2⟩] 1 2 .post
      = (.validationError "author" "Такая подписка уже существует.", [⟨1, 2⟩]) ∧
    SubInvariant (subscribe [⟨1, 2⟩] 1 3 .post).2 := by
  exact ⟨(c4_subscription_invariant [⟨1, 2⟩] 3 3 .post).1 rfl rfl,
    (c4_subscription_invariant [⟨1, 2⟩] 1 2 .post).2.1 rfl (by decide) (by decide),
    (c4_subscription_invariant [⟨1, 2⟩] 1 3 .post).2.2 ⟨by decide, by decide⟩⟩

/- ---------------------------------------------------------------------
UserWriteSerializer.create and claim C5.
--------------------------------------------------------------------- -/

/-- Outcome of UserWriteSerializer.create: the created user row, or a raised
ValidationError (rendered as a field-keyed 400). -/
inductive CreateResp
  | ok (u : UserRec)
  | validationError (field : String) (msg : String)
deriving DecidableEq

/-- HTTP status code of a user-creation outcome. -/
def CreateResp.status : CreateResp → Nat
  | ok _ => 201
  | validationError _ _ => 400

/-- UserWriteSerializer.create: scan User.objects.all() and raise a
ValidationError keyed on the password field when some stored password checks
against the supplied one; otherwise create the user and set their password
to the supplied value. -/
def user_create (users : List UserRec) (newId : Nat) (pw : String) :
    CreateResp × List UserRec :=
  if users.any (fun u => u.password == pw) then
    (.validationError "password" "Пользователь с таким паролем уже существует.", users)
  else
    (.ok ⟨newId, pw, false⟩, users ++ [⟨newId, pw, false⟩])

/-- C5: a registration whose password equals the stored password of an
existing user answers a validation error with status 400 keyed on the
password field and creates no user; otherwise the user is created with the
supplied password stored on the new row. -/
theorem c5_duplicate_password_validation (users : List UserRec) (newId : Nat)
    (pw : String) :
    ((∃ u ∈ users, u.password = pw) →
      (user_create users newId pw).1
        = .validationError "password" "Пользователь с таким паролем уже существует." ∧
      ((user_create users newId pw).1).status = 400 ∧
      (user_create users newId pw).2 = users) ∧
    ((∀ u ∈ users, u.password ≠ pw) →
      (user_create users newId pw).1 = .ok ⟨newId, pw, false⟩ ∧
      (user_create users newId pw).2 = users ++ [⟨newId, pw, false⟩]) := by
  constructor
  · rintro ⟨u, hu, hpw⟩
    have hany : users.any (fun u => u.password == pw) = true := by
      rw [List.any_eq_true]
      exact ⟨u, hu, by simp [hpw]⟩
    simp [user_create, hany, CreateResp.status]
  · intro hno
    have hany : users.any (fun u => u.password == pw) = false := by
      rw [← Bool.not_eq_true, List.any_eq_true]
      rintro ⟨u, hu, hbeq⟩
      exact hno u hu (by simpa using hbeq)
    simp [user_create, hany]

/-- C5 witness: registering with the stored password of user 1 is rejected
with no new row, while a fresh password creates the row. -/
theorem c5_duplicate_password_validation_witness :
    ((user_create [⟨1, "taken", false⟩] 2 "taken").1).status = 400 ∧
    (user_create [⟨1, "taken", false⟩] 2 "taken").2 = [⟨1, "taken", false⟩] ∧
    (user_create [⟨1, "taken", false⟩] 2 "fresh").2
      = [⟨1, "taken", false⟩, ⟨2, "fresh", false⟩] := by
  have h1 := (c5_duplicate_password_validation [⟨1, "taken", false⟩] 2 "taken").1
    ⟨⟨1, "taken", false⟩, by decide, rfl⟩
  have h2 := (c5_duplicate_password_validation [⟨1, "taken", false⟩] 2 "fresh").2
    (by decide)
  exact ⟨h1.2.1, h1.2.2, h2.2⟩

/- ---------------------------------------------------------------------
RecipeWriteSerializer.update and claim C7.
--------------------------------------------------------------------- -/

/-- Lookup of get_object_or_404(Ingredient, id=ingredient_data['id']). -/
def findIngredient (catalog : List Ingredient) (iid : Nat) : Option Ingredient :=
  catalog.find? (fun i => i.id == iid)

/-- RecipeWriteSerializer.get_amounts: one RecipeIngredientAmount row per
payload entry, resolving each ingredient id against the catalog; none models
the 404 raised when an id does not resolve. -/
def get_amounts (catalog : List Ingredient) (rid : Nat) :
    List (Nat × Nat) → Option (List RecipeIngredientAmount)
  | [] => some []
  | p :: ps =>
    match findIngredient catalog p.1, get_amounts catalog rid ps with
    | some ing, some rest => some (⟨rid, ing, p.2⟩ :: rest)
    | _, _ => none

/-- RecipeWriteSerializer.update restricted to the relation state it mutates:
instance.recipeingredientamount.all().delete() followed by bulk_create of
get_amounts, and instance.tags.set(tags) which replaces the recipe's rows of
the recipe-tag through table (`recipeTags`) by the distinct payload tag ids. -/
def recipe_update (catalog : List Ingredient) (rias : List RecipeIngredientAmount)
    (recipeTags : List (Nat × Nat)) (rid : Nat)
    (ingredients_data : List (Nat × Nat)) (tags_data : List Nat) :
    Option (List RecipeIngredientAmount × List (Nat × Nat)) :=
  match get_amounts catalog rid ingredients_data with
  | none => none
  | some amounts =>
    some ((rias.filter (fun r => !(r.recipe == rid))) ++ amounts,
      (recipeTags.filter (fun p => !(p.1 == rid)))
        ++ tags_data.dedup.map (fun t => (rid, t)))

/-- Every amount row produced by get_amounts belongs to the updated recipe. -/
theorem get_amounts_recipe (catalog : List Ingredient) (rid : Nat)
    (ing_data : List (Nat × Nat)) (amounts : List RecipeIngredientAmount)
    (h : get_amounts catalog rid ing_data = some amounts) :
    ∀ a ∈ amounts, a.recipe = rid := by
  induction ing_data generalizing amounts with
  | nil =>
    simp [get_amounts] at h
    subst h
    intro a ha
    simp at ha
  | cons p ps ih =>
    simp only [get_amounts] at h
    cases hfind : findIngredient catalog p.1 with
    | none => rw [hfind] at h; simp at h
    | some ing =>
      rw [hfind] at h
      cases hrest : get_amounts catalog rid ps with
      | none => rw [hrest] at h; simp at h
      | some rest =>
        rw [hrest] at h
        simp at h
        subst h
        intro a ha
        rcases List.mem_cons.mp ha with h1 | h1
        · subst h1; rfl
        · exact ih rest hrest a h1

/-- C7: after a successful recipe update carrying tag list T, the recipe's
rows of the tag relation are exactly the tags in T — earlier tags not in T
are gone with no explicit removal call, tags of other recipes are untouched —
and the recipe's ingredient-amount rows are exactly those built from the
payload, rows of other recipes being untouched. -/
theorem c7_update_replaces_tags_ingredients (catalog : List Ingredient)
    (rias : List RecipeIngredientAmount) (recipeTags : List (Nat × Nat))
    (rid : Nat) (ing_data : List (Nat × Nat)) (tags_data : List Nat)
    (out : List RecipeIngredientAmount × List (Nat × Nat))
    (h : recipe_update catalog rias recipeTags rid ing_data tags_data = some out) :
    (∀ t, (rid, t) ∈ out.2 ↔ t ∈ tags_data) ∧
    (∀ p ∈ out.2, p.1 ≠ rid → p ∈ recipeTags) ∧
    (∀ p ∈ recipeTags, p.1 ≠ rid → p ∈ out.2) ∧
    (∀ amounts, get_amounts catalog rid ing_data = some amounts →
      out.1.filter (fun r => r.recipe == rid) = amounts) ∧
    (∀ r ∈ out.1, r.recipe ≠ rid → r ∈ rias) ∧
    (∀ r ∈ rias, r.recipe ≠ rid → r ∈ out.1) := by
  simp only [recipe_update] at h
  cases hga : get_amounts catalog rid ing_data with
  | none => rw [hga] at h; simp at h
  | some amounts =>
    rw [hga] at h
    simp at h
    subst h
    have hrec := get_amounts_recipe catalog rid ing_data amounts hga
    refine ⟨?_, ?_, ?_, ?_, ?_, ?_⟩
    · intro t
      constructor
      · intro ht
        rcases List.mem_append.mp ht with h1 | h1
        · have := List.mem_filter.mp h1
          simp at this
        · obtain ⟨u, hu, he⟩ := List.mem_map.mp h1
          have : u = t := by
            simpa using congrArg Prod.snd he
          subst this
          exact List.mem_dedup.mp hu
      · intro ht
        apply List.mem_append.mpr
        right
        exact List.mem_map.mpr ⟨t, List.mem_dedup.mpr ht, rfl⟩
    · intro p hp hne
      rcases List.mem_append.mp hp with h1 | h1
      · exact (List.mem_filter.mp h1).1
      · obtain ⟨u, hu, he⟩ := List.mem_map.mp h1
        exfalso
        apply hne
        rw [← he]
    · intro p hp hne
      apply List.mem_append.mpr
      left
      refine List.mem_filter.mpr ⟨hp, ?_⟩
      simp [hne]
    · intro amounts2 hga2
      obtain rfl : amounts = amounts2 := Option.some.inj hga2
      show (List.filter (fun r => !(r.recipe == rid)) rias ++ amounts).filter
          (fun r => r.recipe == rid) = amounts
      rw [List.filter_append]
      have h1 : (rias.filter (fun r => !(r.recipe == rid))).filter
          (fun r => r.recipe == rid) = [] := by
        rw [List.filter_filter]
        apply List.filter_eq_nil_iff.mpr
        intro r hr
        simp
      have h2 : amounts.filter (fun r => r.recipe == rid) = amounts := by
        apply List.filter_eq_self.mpr
        intro a ha
        simp [hrec a ha]
      rw [h1, h2, List.nil_append]
    · intro r hr hne
      rcases List.mem_append.mp hr with h1 | h1
      · exact (List.mem_filter.mp h1).1
      · exact absurd (hrec r h1) hne
    · intro r hr hne
      apply List.mem_append.mpr
      left
      refine List.mem_filter.mpr ⟨hr, ?_⟩
      simp [hne]

/-- C7 witness: recipe 5 previously tagged 1 and 2 is updated with tag list
[2, 3]: tag 2 is attached, the stale tag 1 is gone, and its single amount row
is the payload one. -/
theorem c7_update_replaces_tags_ingredients_witness :
    ((5, 2) ∈ ([(6, 1), (5, 2), (5, 3)] : List (Nat × Nat))) ∧
    ((5, 1) ∉ ([(6, 1), (5, 2), (5, 3)] : List (Nat × Nat))) ∧
    ([⟨6, ⟨1, "flour", "g"⟩, 3⟩, ⟨5, ⟨1, "flour", "g"⟩, 7⟩]
      : List RecipeIngredientAmount).filter (fun r => r.recipe == 5)
      = [⟨5, ⟨1, "flour", "g"⟩, 7⟩] := by
  have h := c7_update_replaces_tags_ingredients [⟨1, "flour", "g"⟩]
    [⟨5, ⟨1, "flour", "g"⟩, 10⟩, ⟨6, ⟨1, "flour", "g"⟩, 3⟩]
    [(5, 1), (5, 2), (6, 1)] 5 [(1, 7)] [2, 3]
    ([⟨6, ⟨1, "flour", "g"⟩, 3⟩, ⟨5, ⟨1, "flour", "g"⟩, 7⟩],
     [(6, 1), (5, 2), (5, 3)]) (by decide)
  refine ⟨(h.1 2).mpr (by decide), ?_, h.2.2.2.1 [⟨5, ⟨1, "flour", "g"⟩, 7⟩] (by decide)⟩
  intro hmem
  have := (h.1 1).mp hmem
  simp at this

/- ---------------------------------------------------------------------
IngredientViewSet name search and claim C8.
--------------------------------------------------------------------- -/

/-- Case folding used by the istartswith lookup of the store, covering the
alphabets of the catalog: ASCII A-Z and Cyrillic А-Я map to their lowercase
counterparts, Ё to ё, and every other character is unchanged. -/
def lowerChar (c : Char) : Char :=
  if 0x41 ≤ c.toNat ∧ c.toNat ≤ 0x5A then Char.ofNat (c.toNat + 0x20)
  else if 0x410 ≤ c.toNat ∧ c.toNat ≤ 0x42F then Char.ofNat (c.toNat + 0x20)
  else if c.toNat = 0x401 then Char.ofNat 0x451
  else c

/-- Separator characters of SearchFilter.get_search_terms: the search string
is split on whitespace after commas are replaced by spaces. -/
def isSep (c : Char) : Bool :=
  c.isWhitespace || c == ','

/-- Splitting a character list on separators, discarding empty chunks, with
the accumulator holding the current chunk reversed. -/
def termsAux : List Char → List Char → List (List Char)
  | [], acc => if acc.isEmpty then [] else [acc.reverse]
  | c :: cs, acc =>
    if isSep c then
      if acc.isEmpty then termsAux cs [] else acc.reverse :: termsAux cs []
    else
      termsAux cs (c :: acc)

/-- SearchFilter.get_search_terms: the comma/whitespace-separated terms of
the search string. -/
def searchTerms (s : String) : List (List Char) :=
  termsAux s.data []

/-- The istartswith lookup that the caret of search_fields = ('^name',) maps
to: a case-insensitive starts-with comparison. -/
def istartsWith (name term : List Char) : Bool :=
  (term.map lowerChar).isPrefixOf (name.map lowerChar)

/-- IngredientViewSet lookup with filter_backends = (filters.SearchFilter,)
and search_fields = ('^name',): the search string is split into terms and
the queryset keeps the ingredients whose name matches the istartswith lookup
for every term. -/
def ingredient_name_search (ings : List Ingredient) (s : String) :
    List Ingredient :=
  ings.filter (fun i => (searchTerms s).all (fun t => istartsWith i.name.data t))

/-- C8 counterexample to the claimed case-sensitive prefix semantics: the
lookup on "по" returns the ingredient named "Помидор" although that name does
not start with "по", and also returns "ПОпо", whose name contains "по" only
in a non-initial position. -/
theorem c8_case_sensitive_prefix_counterexample :
    (⟨1, "Помидор", "г"⟩ : Ingredient)
      ∈ ingredient_name_search [⟨1, "Помидор", "г"⟩, ⟨2, "ПОпо", "г"⟩] "по" ∧
    ("по".data.isPrefixOf "Помидор".data) = false ∧
    (⟨2, "ПОпо", "г"⟩ : Ingredient)
      ∈ ingredient_name_search [⟨1, "Помидор", "г"⟩, ⟨2, "ПОпо", "г"⟩] "по" ∧
    ("по".data.isPrefixOf "ПОпо".data) = false := by
  decide

/-- C8 (amended): the ingredient lookup splits the search string into
comma/whitespace-separated terms and returns exactly the ingredients whose
name starts case-insensitively with every term; searching "по" over a
catalog holding "Помидор", "помидор" and "опора" returns the two tomatoes
and not "опора". -/
theorem c8_ingredient_search_istartswith (ings : List Ingredient) (s : String) :
    (∀ i, i ∈ ingredient_name_search ings s ↔
      i ∈ ings ∧ ∀ t ∈ searchTerms s, istartsWith i.name.data t = true) ∧
    ingredient_name_search
      [⟨1, "Помидор", "г"⟩, ⟨2, "помидор", "г"⟩, ⟨3, "опора", "шт"⟩] "по"
      = [⟨1, "Помидор", "г"⟩, ⟨2, "помидор", "г"⟩] := by
  refine ⟨?_, by decide⟩
  intro i
  constructor
  · intro h
    have hm := List.mem_filter.mp h
    exact ⟨hm.1, List.all_eq_true.mp hm.2⟩
  · rintro ⟨h1, h2⟩
    exact List.mem_filter.mpr ⟨h1, List.all_eq_true.mpr h2⟩

/-- C8 witness: the characterization evaluated on the three-ingredient
catalog: "Помидор" is returned and "опора" is not. -/
theorem c8_ingredient_search_istartswith_witness :
    (⟨1, "Помидор", "г"⟩ : Ingredient) ∈ ingredient_name_search
      [⟨1, "Помидор", "г"⟩, ⟨2, "помидор", "г"⟩, ⟨3, "опора", "шт"⟩] "по" ∧
    (⟨3, "опора", "шт"⟩ : Ingredient) ∉ ingredient_name_search
      [⟨1, "Помидор", "г"⟩, ⟨2, "помидор", "г"⟩, ⟨3, "опора", "шт"⟩] "по" := by
  have h := c8_ingredient_search_istartswith
    [⟨1, "Помидор", "г"⟩, ⟨2, "помидор", "г"⟩, ⟨3, "опора", "шт"⟩] "по"
  constructor
  · exact (h.1 ⟨1, "Помидор", "г"⟩).mpr ⟨by decide, by decide⟩
  · intro hmem
    have h2 := ((h.1 ⟨3, "опора", "шт"⟩).mp hmem).2 "по".data (by decide)
    exact absurd h2 (by decide)

/- ---------------------------------------------------------------------
RecipeViewSet.partial_update and claim C9.
--------------------------------------------------------------------- -/

/-- Write payload of RecipeWriteSerializer — ingredients as (id, amount)
pairs, tag ids, image, name, text, cooking_time. Each field is optional to
model a request that omits it. -/
structure RecipePayload where
  ingredients : Option (List (Nat × Nat))
  tags : Option (List Nat)
  image : Option String
  name : Option String
  text : Option String
  cooking_time : Option Nat
deriving DecidableEq

/-- The editable recipe fields written by RecipeWriteSerializer. -/
structure RecipeFields where
  ingredients : List (Nat × Nat)
  tags : List Nat
  image : String
  name : String
  text : String
  cooking_time : Nat
deriving DecidableEq

/-- Whether every field required by RecipeWriteSerializer is supplied. -/
def payloadComplete (p : RecipePayload) : Bool :=
  p.ingredients.isSome && p.tags.isSome && p.image.isSome &&
  p.name.isSome && p.text.isSome && p.cooking_time.isSome

/-- The framework update flow parameterized by the serializer's
missing-fields-allowed flag (kwargs['partial'] of the view layer): when the
flag is cleared every required field must be present or validation fails
with a field-required error; supplied fields always overwrite the instance,
and an omitted field keeps its old value only when the flag is set. -/
def update_recipe (allowMissing : Bool) (old : RecipeFields)
    (p : RecipePayload) : Except String RecipeFields :=
  if allowMissing || payloadComplete p then
    .ok {
      ingredients := p.ingredients.getD old.ingredients
      tags := p.tags.getD old.tags
      image := p.image.getD old.image
      name := p.name.getD old.name
      text := p.text.getD old.text
      cooking_time := p.cooking_time.getD old.cooking_time }
  else
    .error "This field is required."

/-- RecipeViewSet.partial_update: the PATCH entry point forces
kwargs['partial'] = False before delegating to update, so a PATCH runs the
non-partial (full replacement) update. -/
def patchUpdate (old : RecipeFields) (p : RecipePayload) :
    Except String RecipeFields :=
  update_recipe false old p

/-- C9: a PATCH omitting any required field is rejected; the PATCH result
never depends on the old field values (full replacement, identical to PUT);
and a successful PATCH stores exactly the payload's values in every field. -/
theorem c9_patch_is_full_update (old : RecipeFields) (p : RecipePayload) :
    (payloadComplete p = false →
      patchUpdate old p = .error "This field is required.") ∧
    (∀ old2 : RecipeFields, patchUpdate old p = patchUpdate old2 p) ∧
    (∀ f : RecipeFields, patchUpdate old p = .ok f →
      some f.ingredients = p.ingredients ∧ some f.tags = p.tags ∧
      some f.image = p.image ∧ some f.name = p.name ∧
      some f.text = p.text ∧ some f.cooking_time = p.cooking_time) := by
  refine ⟨?_, ?_, ?_⟩
  · intro hmiss
    simp [patchUpdate, update_recipe, hmiss]
  · intro old2
    by_cases hc : payloadComplete p = true
    · have hc2 := hc
      simp only [payloadComplete, Bool.and_eq_true] at hc2
      obtain ⟨⟨⟨⟨⟨h1, h2⟩, h3⟩, h4⟩, h5⟩, h6⟩ := hc2
      obtain ⟨v1, e1⟩ := Option.isSome_iff_exists.mp h1
      obtain ⟨v2, e2⟩ := Option.isSome_iff_exists.mp h2
      obtain ⟨v3, e3⟩ := Option.isSome_iff_exists.mp h3
      obtain ⟨v4, e4⟩ := Option.isSome_iff_exists.mp h4
      obtain ⟨v5, e5⟩ := Option.isSome_iff_exists.mp h5
      obtain ⟨v6, e6⟩ := Option.isSome_iff_exists.mp h6
      simp [patchUpdate, update_recipe, hc, e1, e2, e3, e4, e5, e6]
    · have hf : payloadComplete p = false := by
        rwa [← Bool.not_eq_true]
      simp [patchUpdate, update_recipe, hf]
  · intro f hfok
    by_cases hc : payloadComplete p = true
    · have hc2 := hc
      simp only [payloadComplete, Bool.and_eq_true] at hc2
      obtain ⟨⟨⟨⟨⟨h1, h2⟩, h3⟩, h4⟩, h5⟩, h6⟩ := hc2
      obtain ⟨v1, e1⟩ := Option.isSome_iff_exists.mp h1
      obtain ⟨v2, e2⟩ := Option.isSome_iff_exists.mp h2
      obtain ⟨v3, e3⟩ := Option.isSome_iff_exists.mp h3
      obtain ⟨v4, e4⟩ := Option.isSome_iff_exists.mp h4
      obtain ⟨v5, e5⟩ := Option.isSome_iff_exists.mp h5
      obtain ⟨v6, e6⟩ := Option.isSome_iff_exists.mp h6
      simp only [patchUpdate, update_recipe, hc, e1, e2, e3, e4, e5, e6,
        Bool.false_or, if_true, Option.getD_some, Except.ok.injEq] at hfok
      subst hfok
      simp [e1, e2, e3, e4, e5, e6]
    · have hff : payloadComplete p = false := by
        rwa [← Bool.not_eq_true]
      simp [patchUpdate, update_recipe, hff] at hfok

/-- C9 witness: a PATCH payload missing the name field is rejected outright
on a concrete recipe, and a complete PATCH payload gives the same result over
two different stored recipes. -/
theorem c9_patch_is_full_update_witness :
    patchUpdate ⟨[], [], "old.png", "oldname", "oldtext", 1⟩
      ⟨some [(1, 2)], some [1], some "img.png", none, some "t", some 3⟩
      = .error "This field is required." ∧
    patchUpdate ⟨[], [], "old.png", "oldname", "oldtext", 1⟩
      ⟨some [(1, 2)], some [1], some "img.png", some "n", some "t", some 3⟩
      = patchUpdate ⟨[(9, 9)], [9], "x.png", "y", "z", 9⟩
      ⟨some [(1, 2)], some [1], some "img.png", some "n", some "t", some 3⟩ := by
  exact ⟨(c9_patch_is_full_update ⟨[], [], "old.png", "oldname", "oldtext", 1⟩
      ⟨some [(1, 2)], some [1], some "img.png", none, some "t", some 3⟩).1 (by decide),
    (c9_patch_is_full_update ⟨[], [], "old.png", "oldname", "oldtext", 1⟩
      ⟨some [(1, 2)], some [1], some "img.png", some "n", some "t", some 3⟩).2.1
      ⟨[(9, 9)], [9], "x.png", "y", "z", 9⟩⟩

/- ---------------------------------------------------------------------
RecipeViewSet.get_queryset and claim C10.
--------------------------------------------------------------------- -/

/-- Recipe pks favorited by a user:
user.recipes_favorite_related.all().values_list('recipe__pk', flat=True). -/
def favoritePks (favs : List MembershipRow) (user : Nat) : List Nat :=
  (favs.filter (fun m => m.user == user)).map (fun m => m.recipe)

/-- RecipeViewSet.get_queryset: when is_favorited is "1" and the requester is
authenticated the favorited filter is returned at once; only otherwise is the
is_in_shopping_cart flag consulted, and with neither flag the full queryset
is returned. -/
def get_queryset (recipes : List Nat) (favs carts : List MembershipRow)
    (user : Nat) (authed : Bool) (qf qc : Option String) : List Nat :=
  if qf == some "1" && authed then
    recipes.filter (fun r => (favoritePks favs user).contains r)
  else if qc == some "1" && authed then
    recipes.filter (fun r => (cartRecipePks carts user).contains r)
  else
    recipes

/-- C10: an authenticated request carrying both is_favorited=1 and
is_in_shopping_cart=1 receives exactly the requester's favorited recipes —
the result does not depend on the shopping-cart table at all — and on a
concrete state where the cart holds a different recipe the result differs
from the intersection of the two sets. -/
theorem c10_both_flags_return_favorites (recipes : List Nat)
    (favs carts carts2 : List MembershipRow) (user : Nat) :
    get_queryset recipes favs carts user true (some "1") (some "1")
      = recipes.filter (fun r => (favoritePks favs user).contains r) ∧
    get_queryset recipes favs carts user true (some "1") (some "1")
      = get_queryset recipes favs carts2 user true (some "1") (some "1") ∧
    get_queryset [1, 2] [⟨5, 1⟩] [⟨5, 2⟩] 5 true (some "1") (some "1") = [1] ∧
    get_queryset [1, 2] [⟨5, 1⟩] [⟨5, 2⟩] 5 true (some "1") (some "1")
      ≠ ([1, 2] : List Nat).filter (fun r =>
          (favoritePks [⟨5, 1⟩] 5).contains r
            && (cartRecipePks [⟨5, 2⟩] 5).contains r) := by
  have hcond : (((some "1" : Option String) == some "1") && true) = true := by
    decide
  refine ⟨?_, ?_, by decide, by decide⟩
  · simp only [get_queryset, hcond, if_true]
  · simp only [get_queryset, hcond, if_true]

end Foodgram
